import Mathlib

/-!
Shallow embedding of the GeoRabbit quadtree scan engine:
`src/robbit/models.py` (Tile, BBox, Image), `src/robbit/flickr.py`
(rate-limited API client with its retry loop) and
`src/robbit/management/commands/scan_flickr.py` (the `handle_tile` of the scan
orchestrator with its dedup and persistence logic).

Python floats are modelled by rationals: every quantity appearing in
`Tile.bbox` is a dyadic rational `p / 2^depth` with `|p| ≤ 540 * 2^19`,
far below `2^53`, so IEEE double arithmetic is exact on all of them and
ℚ is a faithful model for every reachable depth.

The database is modelled as an explicit store value: `Model.save()`
replaces the row with the same primary key, `bulk_create` appends rows,
and the Django `atomic()` context manager is modelled as roll-back-on-failure:
when the writes inside the block fail, the store is left unchanged.
-/

namespace GeoRabbit

/-- `Coords` from models.py: a pair of x, y coordinates. -/
structure Coords where
  x : ℚ
  y : ℚ
deriving DecidableEq

/-- `BBox` from models.py: c1 is the small values and c2 is the big values. -/
structure BBox where
  c1 : Coords
  c2 : Coords
deriving DecidableEq

/-- The set of points a bounding box covers (the rectangle
`Polygon.from_bbox` materializes, boundary included): `c1` holds the
small values and `c2` the big values. -/
def BBox.containsPoint (b : BBox) (p : ℚ × ℚ) : Prop :=
  b.c1.x ≤ p.1 ∧ p.1 ≤ b.c2.x ∧ b.c1.y ≤ p.2 ∧ p.2 ≤ b.c2.y

/-- The interior of a bounding box: its rectangle without the boundary,
used to state that sibling tiles overlap at most on shared edges. -/
def BBox.interiorPoint (b : BBox) (p : ℚ × ℚ) : Prop :=
  b.c1.x < p.1 ∧ p.1 < b.c2.x ∧ b.c1.y < p.2 ∧ p.2 < b.c2.y

/-- The three values of `Tile.status`. -/
inductive Status where
  | toProbe
  | contained
  | split
deriving DecidableEq

/-- A row of the `Tile` table.  `id` is the surrogate primary key Django
assigns; `parent` is the foreign key (`null=True`). -/
structure Tile where
  id : Nat
  parent : Option Nat
  depth : Nat
  x : Int
  y : Int
  status : Status
deriving DecidableEq

/-- `Tile.MAX_DEPTH` from models.py. -/
def Tile.MAX_DEPTH : Nat := 19

/-- `Tile.bbox` from models.py:
`splits = 2.0 ** depth; dx = 360.0 / splits; dy = 180.0 / splits`. -/
def Tile.bbox (t : Tile) : BBox :=
  let splits : ℚ := 2 ^ t.depth
  let dx : ℚ := 360 / splits
  let dy : ℚ := 180 / splits
  ⟨⟨-180 + t.x * dx, -90 + t.y * dy⟩,
   ⟨-180 + (t.x + 1) * dx, -90 + (t.y + 1) * dy⟩⟩

/-- A row of the `Image` table.  `data` (the raw JSON payload) carries no
logic, and the timestamp is abstracted to an integer. -/
structure Image where
  flickr_id : Int
  coords : ℚ × ℚ
  date_taken : Int
  faves : Int
deriving DecidableEq

/-- The persistent store: the `Tile` rows, the next primary key Django
will assign to a new tile row, and the `Image` rows. -/
structure Store where
  tiles : List Tile
  nextId : Nat
  images : List Image
deriving DecidableEq

/-- `Model.save()` on an existing row: replace the row carrying the same
primary key. -/
def saveTile (rows : List Tile) (t : Tile) : List Tile :=
  rows.map fun u => if u.id = t.id then t else u

/-- The four `Tile(...)` rows built inside `Tile.need_children`
(`x2 = x * 2; y2 = y * 2`), in the order they are passed to
`bulk_create`, with primary keys assigned from `n`.  New rows get the
default status `TO_PROBE`. -/
def children4 (n : Nat) (t : Tile) : List Tile :=
  [⟨n, some t.id, t.depth + 1, t.x * 2, t.y * 2, Status.toProbe⟩,
   ⟨n + 1, some t.id, t.depth + 1, t.x * 2 + 1, t.y * 2, Status.toProbe⟩,
   ⟨n + 2, some t.id, t.depth + 1, t.x * 2 + 1, t.y * 2 + 1, Status.toProbe⟩,
   ⟨n + 3, some t.id, t.depth + 1, t.x * 2, t.y * 2 + 1, Status.toProbe⟩]

/-- `Tile.need_children` from models.py: refuse when `depth + 1 > MAX_DEPTH`,
otherwise `bulk_create` the four children, set `self.status = SPLIT`,
`self.save()` and return `True`.  Returns the Python return value, the
mutated in-memory tile and the store after the writes. -/
def needChildren (st : Store) (t : Tile) : Bool × Tile × Store :=
  if t.depth + 1 > Tile.MAX_DEPTH then (false, t, st)
  else
    let t' := { t with status := Status.split }
    (true, t',
      { st with
        tiles := saveTile (st.tiles ++ children4 st.nextId t) t'
        nextId := st.nextId + 4 })

/-- `Tile.mark_done` from models.py: `self.status = CONTAINED; self.save()`. -/
def markDone (st : Store) (t : Tile) : Tile × Store :=
  let t' := { t with status := Status.contained }
  (t', { st with tiles := saveTile st.tiles t' })

/-! ### The Flickr client (`src/robbit/flickr.py`) -/

/-- `Flickr.PER_PAGE`. -/
def PER_PAGE : Int := 250

/-- `Flickr.MAX_SEARCH_RESULTS = PER_PAGE * 8`. -/
def MAX_SEARCH_RESULTS : Int := PER_PAGE * 8

/-- One HTTP response: the status code and the parsed JSON body. -/
structure HttpResponse (β : Type) where
  status : Nat
  json : β

/-- `Response.raise_for_status()` raises exactly for 4xx and 5xx codes. -/
def raisesForStatus (s : Nat) : Bool :=
  decide (400 ≤ s ∧ s < 600)

/-- The possible outcomes of `Flickr.call`. -/
inductive CallResult (β : Type) where
  | body (b : β)
  | fellOff
  | httpError (status : Nat)
  | ioError
deriving DecidableEq

/-- The `for _ in range(0, 100)` loop of `Flickr.call`, followed by the
post-loop code.  `resp j` is the response the session returns on attempt
`j` (attempts are numbered from 0); `remaining` is the number of loop
iterations left and `i` the index of the next attempt.  On a 500 the code
sleeps `RETRY_WAIT` seconds (untimed here) and retries; on any other
status it calls `raise_for_status()` and returns `r.json()`.  After the
loop, `r` holds the attempt-99 response, whose truthiness is
`Response.ok`, i.e. the negation of `raise_for_status` raising; a falsy
response triggers `IOError("Could not get a response")`, and a truthy one
would fall off the end of the function. -/
def callLoop {β : Type} (resp : Nat → HttpResponse β) : Nat → Nat → CallResult β
  | 0, i =>
      if raisesForStatus (resp (i - 1)).status then CallResult.ioError
      else CallResult.fellOff
  | n + 1, i =>
      if (resp i).status = 500 then callLoop resp n (i + 1)
      else if raisesForStatus (resp i).status then CallResult.httpError (resp i).status
      else CallResult.body (resp i).json

/-- `Flickr.call`: run the retry loop for its 100 iterations. -/
def call {β : Type} (resp : Nat → HttpResponse β) : CallResult β :=
  callLoop resp 100 0

/-! ### The orchestrator (`scan_flickr.py`) -/

/-- One photo record as the orchestrator consumes it.  `id` is
`int(photo["id"])`, which the collection loop parses outside any
`try` block, so it is taken as already parsed; the remaining fields are
the results of the fallible parses inside `make_images` (`float` on the
coordinates, `pendulum.parse` on the timestamp, `int` on the fave count,
with an absent `count_faves` already defaulted to `0`): `none` means the
parse raises `ValueError`/`TypeError`. -/
structure RawPhoto where
  id : Int
  longitude : Option ℚ
  latitude : Option ℚ
  datetaken : Option Int
  count_faves : Option Int
deriving DecidableEq

/-- The body of the `yield Image(...)` inside `make_images`: all four
fallible parses must succeed, otherwise the record is skipped. -/
def makeImage (p : RawPhoto) : Option Image :=
  match p.longitude, p.latitude, p.datetaken, p.count_faves with
  | some lon, some lat, some dt, some cf => some ⟨p.id, (lon, lat), dt, cf⟩
  | _, _, _, _ => none

/-- The `make_images` generator of `scan_flickr.py`: for each accumulated
record, skip it when its id is in `existing`, otherwise yield the parsed
`Image`, swallowing `ValueError`/`TypeError` from the parses. -/
def make_images (existing : List Int) (to_insert : List RawPhoto) : List Image :=
  to_insert.filterMap fun p =>
    if p.id ∈ existing then none else makeImage p

/-- One step of the collection loop of `handle_tile`:
`if photo_id not in seen: seen.add(photo_id); to_insert.append(photo)`. -/
def dedupStep (acc : List Int × List RawPhoto) (p : RawPhoto) :
    List Int × List RawPhoto :=
  if p.id ∈ acc.1 then acc else (p.id :: acc.1, acc.2 ++ [p])

/-- The parsed `photos` object of one search response:
`int(info["photos"]["total"])`, `int(info["photos"]["pages"])` and the
`photo` array. -/
structure PhotosPage where
  total : Int
  pages : Int
  photo : List RawPhoto

/-- The page-count bound of the harvest loop:
`min(int(info["photos"]["pages"]), int(Flickr.MAX_SEARCH_RESULTS / Flickr.PER_PAGE))`,
and `range(0, m)` is empty when `m ≤ 0`. -/
def pagesToFetch (pages : Int) : Nat :=
  (min pages (MAX_SEARCH_RESULTS / PER_PAGE)).toNat

/-- The records the harvest loop of `handle_tile` iterates over, in
order: loop variable `page` runs over `range(0, pagesToFetch)`; page 0
reuses the probe response `info` and page `p > 0` fetches
`f.search(page=p+1, ...)`.  `api p` is the response of
`f.search(page=p, ...)` for the bbox of this tile. -/
def harvestRecords (api : Nat → PhotosPage) (info : PhotosPage) : List RawPhoto :=
  (List.range (pagesToFetch info.pages)).foldr
    (fun page acc => (if page = 0 then info.photo else (api (page + 1)).photo) ++ acc) []

/-- The `seen` set and `to_insert` list after the collection loop. -/
def tileSeenInsert (api : Nat → PhotosPage) (info : PhotosPage) :
    List Int × List RawPhoto :=
  (harvestRecords api info).foldl dedupStep ([], [])

/-- `Command.handle_tile` from scan_flickr.py.  `api p` is the search
response for page `p` of the bbox of this tile (the probe is `api 1`).
`insertOk` models whether the writes inside the
`with self.insert_lock, atomic():` block succeed; on failure the
transaction rolls every write of the block back, leaving the store as it
was, and the raised error aborts the tile (second component `false`). -/
def handleTile (api : Nat → PhotosPage) (insertOk : Bool) (st : Store) (t : Tile) :
    Store × Bool :=
  let info := api 1
  let probe :=
    if MAX_SEARCH_RESULTS < info.total then needChildren st t
    else (false, t, st)
  if probe.1 then (probe.2.2, true)
  else
    let sp := tileSeenInsert api info
    if insertOk then
      let existing :=
        (probe.2.2.images.map Image.flickr_id).filter fun i => decide (i ∈ sp.1)
      let st1 := { probe.2.2 with images := probe.2.2.images ++ make_images existing sp.2 }
      ((markDone st1 probe.2.1).2, true)
    else (probe.2.2, false)

/-! ### Helper lemmas shared by the theorems -/

lemma children4_id_ge (n : Nat) (t : Tile) : ∀ c ∈ children4 n t, n ≤ c.id := by
  intro c hc
  simp only [children4, List.mem_cons, List.not_mem_nil, or_false] at hc
  rcases hc with rfl | rfl | rfl | rfl <;> simp

lemma saveTile_append (rows extra : List Tile) (t : Tile)
    (h : ∀ c ∈ extra, c.id ≠ t.id) :
    saveTile (rows ++ extra) t = saveTile rows t ++ extra := by
  unfold saveTile
  rw [List.map_append]
  congr 1
  have : ∀ c ∈ extra, (fun u => if u.id = t.id then t else u) c = id c := by
    intro c hc
    simp [h c hc]
  rw [List.map_congr_left this, List.map_id]

lemma saveTile_saveTile (rows : List Tile) (t t' : Tile) (h : t.id = t'.id) :
    saveTile (saveTile rows t) t' = saveTile rows t' := by
  unfold saveTile
  rw [List.map_map]
  apply List.map_congr_left
  intro u _
  simp only [Function.comp_apply]
  by_cases hu : u.id = t.id
  · rw [if_pos hu, if_pos h, if_pos (hu.trans h)]
  · rw [if_neg hu]

lemma needChildren_refuse (st : Store) (t : Tile)
    (h : Tile.MAX_DEPTH < t.depth + 1) :
    needChildren st t = (false, t, st) := by
  unfold needChildren
  rw [if_pos h]

lemma needChildren_ok (st : Store) (t : Tile) (h : t.depth + 1 ≤ Tile.MAX_DEPTH) :
    needChildren st t =
      (true, { t with status := Status.split },
        { st with
          tiles := saveTile (st.tiles ++ children4 st.nextId t)
              { t with status := Status.split }
          nextId := st.nextId + 4 }) := by
  unfold needChildren
  rw [if_neg (by omega)]

lemma needChildren_ok_tiles (st : Store) (t : Tile)
    (h : t.depth + 1 ≤ Tile.MAX_DEPTH) (hid : t.id < st.nextId) :
    (needChildren st t).2.2.tiles =
      saveTile st.tiles { t with status := Status.split } ++ children4 st.nextId t := by
  rw [needChildren_ok st t h]
  exact saveTile_append _ _ _ fun c hc => by
    have h2 := children4_id_ge st.nextId t c hc
    show c.id ≠ t.id
    omega

/-- C2: the contract of `Tile.need_children`: with `MAX_DEPTH = 19`, a
tile whose `depth + 1` exceeds `MAX_DEPTH` gets `False` back and nothing
changes; otherwise exactly 4 children are created at `depth + 1`, all
`to-probe` with the tile as parent, the tile row becomes `split`, and
`True` is returned. -/
theorem need_children_contract (st : Store) (t : Tile) (hid : t.id < st.nextId) :
    Tile.MAX_DEPTH = 19
    ∧ (Tile.MAX_DEPTH < t.depth + 1 → needChildren st t = (false, t, st))
    ∧ (t.depth + 1 ≤ Tile.MAX_DEPTH →
        (needChildren st t).1 = true
        ∧ (needChildren st t).2.1 = { t with status := Status.split }
        ∧ (needChildren st t).2.2.tiles =
            saveTile st.tiles { t with status := Status.split } ++ children4 st.nextId t
        ∧ (children4 st.nextId t).length = 4
        ∧ ∀ c ∈ children4 st.nextId t,
            c.depth = t.depth + 1 ∧ c.status = Status.toProbe ∧ c.parent = some t.id) := by
  refine ⟨rfl, needChildren_refuse st t, fun h => ?_⟩
  refine ⟨by rw [needChildren_ok st t h], by rw [needChildren_ok st t h],
    needChildren_ok_tiles st t h hid, rfl, ?_⟩
  intro c hc
  simp only [children4, List.mem_cons, List.not_mem_nil, or_false] at hc
  rcases hc with rfl | rfl | rfl | rfl <;> exact ⟨rfl, rfl, rfl⟩

theorem need_children_contract_witness :
    (needChildren ⟨[⟨0, none, 3, 1, 2, Status.toProbe⟩], 1, []⟩
      ⟨0, none, 3, 1, 2, Status.toProbe⟩).1 = true := by
  have h := need_children_contract ⟨[⟨0, none, 3, 1, 2, Status.toProbe⟩], 1, []⟩
    ⟨0, none, 3, 1, 2, Status.toProbe⟩ (by decide)
  exact (h.2.2 (by decide)).1

/-- C10: neither transition checks its declared precondition: `mark_done`
overwrites any status with `contained` (including `split`), and
`need_children` below `MAX_DEPTH` creates four fresh child rows and sets
`split` whatever the current status is, so a second call appends four
more rows that duplicate the first four in parent, depth and grid
coordinates. -/
theorem transitions_unguarded (st : Store) (t : Tile) :
    ((markDone st t).1 = { t with status := Status.contained })
    ∧ ((markDone st t).2.tiles = saveTile st.tiles { t with status := Status.contained })
    ∧ (t.depth < Tile.MAX_DEPTH → t.id < st.nextId →
        (needChildren st t).1 = true
        ∧ (needChildren (needChildren st t).2.2 (needChildren st t).2.1).1 = true
        ∧ (needChildren (needChildren st t).2.2 (needChildren st t).2.1).2.2.tiles =
            saveTile st.tiles { t with status := Status.split }
              ++ children4 st.nextId t ++ children4 (st.nextId + 4) t
        ∧ (children4 st.nextId t).map (fun c => (c.parent, c.depth, c.x, c.y))
            = (children4 (st.nextId + 4) t).map fun c => (c.parent, c.depth, c.x, c.y)) := by
  refine ⟨rfl, rfl, fun hd hid => ?_⟩
  have h1 : t.depth + 1 ≤ Tile.MAX_DEPTH := by omega
  have e1 := needChildren_ok st t h1
  have hch : ∀ n, st.nextId ≤ n → ∀ c ∈ children4 n t,
      c.id ≠ Tile.id { t with status := Status.split } := by
    intro n hn c hc
    have h2 := children4_id_ge n t c hc
    show c.id ≠ t.id
    omega
  refine ⟨by rw [e1], ?_, ?_, by simp [children4]⟩
  · rw [e1]
    dsimp only
    rw [needChildren_ok _ _ (by exact h1)]
  · rw [e1]
    dsimp only
    rw [needChildren_ok _ _ (by exact h1)]
    show saveTile
        (saveTile (st.tiles ++ children4 st.nextId t) { t with status := Status.split }
          ++ children4 (st.nextId + 4) t)
        { t with status := Status.split }
      = saveTile st.tiles { t with status := Status.split }
          ++ children4 st.nextId t ++ children4 (st.nextId + 4) t
    rw [saveTile_append _ _ _ (hch (st.nextId + 4) (by omega)),
        saveTile_saveTile _ _ _ rfl,
        saveTile_append _ _ _ (hch st.nextId le_rfl)]

theorem transitions_unguarded_witness :
    (needChildren ⟨[⟨0, none, 3, 1, 2, Status.split⟩], 1, []⟩
      ⟨0, none, 3, 1, 2, Status.split⟩).1 = true := by
  have h := transitions_unguarded ⟨[⟨0, none, 3, 1, 2, Status.split⟩], 1, []⟩
    ⟨0, none, 3, 1, 2, Status.split⟩
  exact (h.2.2 (by decide) (by decide)).1

/-- C8, counterexample: the depth-0 tile `(x=0, y=0)` spans the whole
Earth, `(-180,-90)`–`(180,90)`, not `(-180,-90)`–`(0,0)` as claimed. -/
theorem depth0_bbox_counterexample :
    (Tile.mk 0 none 0 0 0 Status.toProbe).bbox = ⟨⟨-180, -90⟩, ⟨180, 90⟩⟩
    ∧ (Tile.mk 0 none 0 0 0 Status.toProbe).bbox ≠ ⟨⟨-180, -90⟩, ⟨0, 0⟩⟩ := by
  constructor <;> norm_num [Tile.bbox, BBox.mk.injEq, Coords.mk.injEq]

/-- C8, amended: it is the depth-1 tile `(x=0, y=0)` that spans
`(-180,-90)`–`(0,0)`; after `need_children` its 4 children at depth 2
have the four claimed bounding boxes and the status of the parent becomes
`split`. -/
theorem depth1_tile_example :
    (Tile.mk 0 none 1 0 0 Status.toProbe).bbox = ⟨⟨-180, -90⟩, ⟨0, 0⟩⟩
    ∧ (needChildren ⟨[Tile.mk 0 none 1 0 0 Status.toProbe], 1, []⟩
         (Tile.mk 0 none 1 0 0 Status.toProbe)).2.2.tiles =
        [Tile.mk 0 none 1 0 0 Status.split]
          ++ children4 1 (Tile.mk 0 none 1 0 0 Status.toProbe)
    ∧ (children4 1 (Tile.mk 0 none 1 0 0 Status.toProbe)).map Tile.bbox =
        [⟨⟨-180, -90⟩, ⟨-90, -45⟩⟩, ⟨⟨-90, -90⟩, ⟨0, -45⟩⟩,
         ⟨⟨-90, -45⟩, ⟨0, 0⟩⟩, ⟨⟨-180, -45⟩, ⟨-90, 0⟩⟩]
    ∧ (∀ c ∈ children4 1 (Tile.mk 0 none 1 0 0 Status.toProbe), c.depth = 2)
    ∧ (needChildren ⟨[Tile.mk 0 none 1 0 0 Status.toProbe], 1, []⟩
         (Tile.mk 0 none 1 0 0 Status.toProbe)).2.1.status = Status.split := by
  refine ⟨?_, by decide, ?_, by decide, by decide⟩
  · norm_num [Tile.bbox, BBox.mk.injEq, Coords.mk.injEq]
  · norm_num [children4, Tile.bbox, BBox.mk.injEq, Coords.mk.injEq]

lemma callLoop_skip500 {β : Type} (resp : Nat → HttpResponse β) :
    ∀ k n i, (∀ j, j < k → (resp (i + j)).status = 500) → k ≤ n →
      callLoop resp n i = callLoop resp (n - k) (i + k) := by
  intro k
  induction k with
  | zero => intro n i _ _; simp
  | succ m ih =>
      intro n i h hk
      obtain ⟨n', rfl⟩ : ∃ n', n = n' + 1 := ⟨n - 1, by omega⟩
      have h0 : (resp i).status = 500 := by simpa using h 0 (by omega)
      have step : callLoop resp (n' + 1) i = callLoop resp n' (i + 1) := by
        simp [callLoop, h0]
      rw [step]
      have e1 : n' + 1 - (m + 1) = n' - m := by omega
      have e2 : i + (m + 1) = i + 1 + m := by omega
      rw [e1, e2]
      exact ih n' (i + 1)
        (fun j hj => by
          have := h (j + 1) (by omega)
          simpa [Nat.add_assoc, Nat.add_comm 1 j] using this)
        (by omega)

/-- C6: the retry policy of `Flickr.call`: a 500 answer is retried (after
the fixed `RETRY_WAIT` backoff sleep, which carries no logic here) up to
a ceiling of 100 attempts; a successful response (one that
`raise_for_status` accepts) returns the parsed body; any other non-500
error status fails immediately with that status via `raise_for_status`;
and 100 consecutive 500 answers exhaust the loop and fail with the
`IOError("Could not get a response")` service-unavailable error. -/
theorem call_retry_policy {β : Type} (resp : Nat → HttpResponse β) (k : Nat) :
    (raisesForStatus (resp 0).status = false →
        call resp = CallResult.body (resp 0).json)
    ∧ ((resp 0).status ≠ 500 → raisesForStatus (resp 0).status = true →
        call resp = CallResult.httpError (resp 0).status)
    ∧ (k < 100 → (∀ j, j < k → (resp j).status = 500) →
        (raisesForStatus (resp k).status = false →
            call resp = CallResult.body (resp k).json)
        ∧ ((resp k).status ≠ 500 → raisesForStatus (resp k).status = true →
            call resp = CallResult.httpError (resp k).status))
    ∧ ((∀ j, j < 100 → (resp j).status = 500) → call resp = CallResult.ioError) := by
  have main : ∀ k, k < 100 → (∀ j, j < k → (resp j).status = 500) →
      (raisesForStatus (resp k).status = false →
          call resp = CallResult.body (resp k).json)
      ∧ ((resp k).status ≠ 500 → raisesForStatus (resp k).status = true →
          call resp = CallResult.httpError (resp k).status) := by
    intro k hk h500
    have hskip : call resp = callLoop resp (100 - k) (0 + k) :=
      callLoop_skip500 resp k 100 0 (fun j hj => by simpa using h500 j hj) (by omega)
    obtain ⟨m, hm⟩ : ∃ m, 100 - k = m + 1 := ⟨100 - k - 1, by omega⟩
    constructor
    · intro hok
      have hne : (resp k).status ≠ 500 := by
        intro hcon
        rw [hcon] at hok
        simp [raisesForStatus] at hok
      rw [hskip, hm]
      simp [callLoop, Nat.zero_add, hne, hok]
    · intro hne herr
      rw [hskip, hm]
      simp [callLoop, Nat.zero_add, hne, herr]
  refine ⟨?_, ?_, main k, ?_⟩
  · intro hok
    exact (main 0 (by omega) (by omega)).1 hok
  · intro hne herr
    exact (main 0 (by omega) (by omega)).2 hne herr
  · intro h500
    have hskip : call resp = callLoop resp (100 - 100) (0 + 100) :=
      callLoop_skip500 resp 100 100 0 (fun j hj => by simpa using h500 j hj) le_rfl
    rw [hskip]
    have h99 : (resp (0 + 100 - 1)).status = 500 := by simpa using h500 99 (by omega)
    simp [callLoop, h99, raisesForStatus]

theorem call_retry_policy_witness :
    call (fun j => if j < 2 then HttpResponse.mk 500 (0 : Int) else HttpResponse.mk 200 42)
      = CallResult.body 42 := by
  have h := call_retry_policy
    (fun j => if j < 2 then HttpResponse.mk 500 (0 : Int) else HttpResponse.mk 200 42) 2
  have h2 := (h.2.2.1 (by omega) fun j hj => by
    interval_cases j <;> rfl)
  exact h2.1 (by rfl)

lemma makeImage_flickr_id (p : RawPhoto) (img : Image)
    (h : makeImage p = some img) : img.flickr_id = p.id := by
  unfold makeImage at h
  rcases hlon : p.longitude with _ | lon <;> rw [hlon] at h <;>
    rcases hlat : p.latitude with _ | lat <;> rw [hlat] at h <;>
    rcases hdt : p.datetaken with _ | dt <;> rw [hdt] at h <;>
    rcases hcf : p.count_faves with _ | cf <;> rw [hcf] at h <;>
    simp at h
  rw [← h]

lemma make_images_all_valid (existing : List Int) (l : List RawPhoto)
    (h : ∀ p ∈ l, (makeImage p).isSome = true ∧ p.id ∉ existing) :
    (make_images existing l).length = l.length := by
  induction l with
  | nil => rfl
  | cons p l ih =>
      have hp := h p (by simp)
      obtain ⟨img, himg⟩ := Option.isSome_iff_exists.mp hp.1
      simp only [make_images, List.filterMap_cons, if_neg hp.2, himg]
      simp only [make_images] at ih
      simp [ih fun q hq => h q (by simp [hq])]

/-- C7: a record whose coordinates, timestamp or fave count fails to
parse is skipped by the `make_images` generator while every other record
is kept, and no error escapes: with one malformed record among `n`
otherwise-valid new records, exactly `n - 1` Images are produced. -/
theorem malformed_record_skipped (existing : List Int) (l1 l2 : List RawPhoto)
    (bad : RawPhoto) (hbad : makeImage bad = none) :
    make_images existing (l1 ++ bad :: l2)
      = make_images existing l1 ++ make_images existing l2
    ∧ ((∀ p ∈ l1 ++ l2, (makeImage p).isSome = true ∧ p.id ∉ existing) →
        (make_images existing (l1 ++ bad :: l2)).length = l1.length + l2.length) := by
  have key : make_images existing (l1 ++ bad :: l2)
      = make_images existing l1 ++ make_images existing l2 := by
    unfold make_images
    rw [List.filterMap_append, List.filterMap_cons]
    by_cases hmem : bad.id ∈ existing
    · rw [if_pos hmem]
    · rw [if_neg hmem, hbad]
  refine ⟨key, fun hvalid => ?_⟩
  rw [key, List.length_append,
    make_images_all_valid existing l1 (fun p hp => hvalid p (by simp [hp])),
    make_images_all_valid existing l2 (fun p hp => hvalid p (by simp [hp]))]

theorem malformed_record_skipped_witness :
    (make_images []
        ([⟨1, some 1, some 1, some 0, some 0⟩, ⟨2, some 1, some 1, some 0, some 0⟩,
          ⟨3, some 1, some 1, some 0, some 0⟩, ⟨4, some 1, some 1, some 0, some 0⟩,
          ⟨5, some 1, some 1, some 0, some 0⟩]
          ++ (⟨10, some 1, some 1, none, some 0⟩ : RawPhoto) ::
            [⟨6, some 1, some 1, some 0, some 0⟩, ⟨7, some 1, some 1, some 0, some 0⟩,
             ⟨8, some 1, some 1, some 0, some 0⟩, ⟨9, some 1, some 1, some 0, some 0⟩])).length
      = 9 := by
  have h := malformed_record_skipped []
    [⟨1, some 1, some 1, some 0, some 0⟩, ⟨2, some 1, some 1, some 0, some 0⟩,
     ⟨3, some 1, some 1, some 0, some 0⟩, ⟨4, some 1, some 1, some 0, some 0⟩,
     ⟨5, some 1, some 1, some 0, some 0⟩]
    [⟨6, some 1, some 1, some 0, some 0⟩, ⟨7, some 1, some 1, some 0, some 0⟩,
     ⟨8, some 1, some 1, some 0, some 0⟩, ⟨9, some 1, some 1, some 0, some 0⟩]
    ⟨10, some 1, some 1, none, some 0⟩ rfl
  simpa using h.2 (by decide)

/-! ### Characterizing the paths through `handle_tile` -/

lemma probe_false_of_le (api : Nat → PhotosPage) (st : Store) (t : Tile)
    (h : (api 1).total ≤ MAX_SEARCH_RESULTS) :
    (if MAX_SEARCH_RESULTS < (api 1).total then needChildren st t
      else (false, t, st)) = (false, t, st) := by
  rw [if_neg (not_lt.mpr h)]

lemma probe_false_of_depth (api : Nat → PhotosPage) (st : Store) (t : Tile)
    (h : Tile.MAX_DEPTH < t.depth + 1) :
    (if MAX_SEARCH_RESULTS < (api 1).total then needChildren st t
      else (false, t, st)) = (false, t, st) := by
  by_cases htot : MAX_SEARCH_RESULTS < (api 1).total
  · rw [if_pos htot, needChildren_refuse st t h]
  · rw [if_neg htot]

lemma handleTile_split (api : Nat → PhotosPage) (insertOk : Bool) (st : Store)
    (t : Tile) (h1 : MAX_SEARCH_RESULTS < (api 1).total)
    (h2 : t.depth + 1 ≤ Tile.MAX_DEPTH) :
    handleTile api insertOk st t = ((needChildren st t).2.2, true) := by
  have hp : (if MAX_SEARCH_RESULTS < (api 1).total then needChildren st t
      else (false, t, st)) = needChildren st t := if_pos h1
  simp only [handleTile, hp]
  rw [needChildren_ok st t h2]
  rfl

lemma handleTile_fail (api : Nat → PhotosPage) (st : Store) (t : Tile)
    (hfalse : (if MAX_SEARCH_RESULTS < (api 1).total then needChildren st t
        else (false, t, st)) = (false, t, st)) :
    handleTile api false st t = (st, false) := by
  simp only [handleTile, hfalse]
  rfl

lemma handleTile_harvest (api : Nat → PhotosPage) (st : Store) (t : Tile)
    (hfalse : (if MAX_SEARCH_RESULTS < (api 1).total then needChildren st t
        else (false, t, st)) = (false, t, st)) :
    handleTile api true st t =
      ({ st with
          tiles := saveTile st.tiles { t with status := Status.contained }
          images := st.images ++ make_images
            ((st.images.map Image.flickr_id).filter fun i =>
              decide (i ∈ (tileSeenInsert api (api 1)).1))
            (tileSeenInsert api (api 1)).2 }, true) := by
  simp only [handleTile, hfalse]
  rfl

/-! ### The dedup invariants of the collection loop -/

lemma dedup_foldl_inv (l : List RawPhoto) :
    ∀ acc : List Int × List RawPhoto,
      (acc.2.map RawPhoto.id).Nodup → (∀ p ∈ acc.2, p.id ∈ acc.1) →
      ((l.foldl dedupStep acc).2.map RawPhoto.id).Nodup
        ∧ ∀ p ∈ (l.foldl dedupStep acc).2, p.id ∈ (l.foldl dedupStep acc).1 := by
  induction l with
  | nil => intro acc h1 h2; exact ⟨h1, h2⟩
  | cons p l ih =>
      intro acc h1 h2
      rw [List.foldl_cons]
      unfold dedupStep
      by_cases hmem : p.id ∈ acc.1
      · rw [if_pos hmem]
        exact ih acc h1 h2
      · rw [if_neg hmem]
        apply ih
        · rw [List.map_append]
          refine List.Nodup.append h1 (by simp) ?_
          intro a ha hb
          simp only [List.map_cons, List.map_nil, List.mem_singleton] at hb
          obtain ⟨q, hq, hqa⟩ := List.mem_map.mp ha
          apply hmem
          rw [← hb, ← hqa]
          exact h2 q hq
        · intro q hq
          rcases List.mem_append.mp hq with hq | hq
          · exact List.mem_cons_of_mem _ (h2 q hq)
          · simp only [List.mem_singleton] at hq
            subst hq
            exact List.mem_cons_self _ _

lemma tileSeenInsert_inv (api : Nat → PhotosPage) (info : PhotosPage) :
    ((tileSeenInsert api info).2.map RawPhoto.id).Nodup
      ∧ ∀ p ∈ (tileSeenInsert api info).2, p.id ∈ (tileSeenInsert api info).1 :=
  dedup_foldl_inv (harvestRecords api info) ([], []) (by simp) (by simp)

lemma make_images_ids_sublist (existing : List Int) (l : List RawPhoto) :
    ((make_images existing l).map Image.flickr_id).Sublist (l.map RawPhoto.id) := by
  induction l with
  | nil => simp [make_images]
  | cons p l ih =>
      simp only [make_images, List.filterMap_cons, List.map_cons]
      by_cases hmem : p.id ∈ existing
      · rw [if_pos hmem]
        exact ih.cons _
      · rw [if_neg hmem]
        rcases himg : makeImage p with _ | img
        · exact ih.cons _
        · simp only [List.map_cons]
          rw [makeImage_flickr_id p img himg]
          exact ih.cons₂ _

lemma make_images_mem (existing : List Int) (l : List RawPhoto) (img : Image)
    (h : img ∈ make_images existing l) :
    ∃ p ∈ l, makeImage p = some img ∧ img.flickr_id = p.id ∧ p.id ∉ existing := by
  unfold make_images at h
  obtain ⟨p, hp, hf⟩ := List.mem_filterMap.mp h
  by_cases hmem : p.id ∈ existing
  · rw [if_pos hmem] at hf
    cases hf
  · rw [if_neg hmem] at hf
    exact ⟨p, hp, hf, makeImage_flickr_id p img hf, hmem⟩

/-- C5: the Images a tile submits for insertion are pairwise distinct by
external id (intra-tile dedup through the `seen` set), none of them
carries an id the existence check found in the store, and consequently a
store whose image ids were unique stays unique after the whole of
`handle_tile`. -/
theorem harvest_dedup_unique (api : Nat → PhotosPage) (info : PhotosPage)
    (storeIds : List Int) :
    ((make_images (storeIds.filter fun i => decide (i ∈ (tileSeenInsert api info).1))
        (tileSeenInsert api info).2).map Image.flickr_id).Nodup
    ∧ (∀ img ∈ make_images
          (storeIds.filter fun i => decide (i ∈ (tileSeenInsert api info).1))
          (tileSeenInsert api info).2,
        img.flickr_id ∉ storeIds)
    ∧ (∀ st t, st.images.map Image.flickr_id = storeIds → storeIds.Nodup →
        ((handleTile api true st t).1.images.map Image.flickr_id).Nodup) := by
  have hnodup : ((make_images
      (storeIds.filter fun i => decide (i ∈ (tileSeenInsert api info).1))
      (tileSeenInsert api info).2).map Image.flickr_id).Nodup :=
    ((make_images_ids_sublist _ _)).nodup (tileSeenInsert_inv api info).1
  have hfresh : ∀ img ∈ make_images
      (storeIds.filter fun i => decide (i ∈ (tileSeenInsert api info).1))
      (tileSeenInsert api info).2,
      img.flickr_id ∉ storeIds := by
    intro img himg hstore
    obtain ⟨p, hp, _, hid, hnotex⟩ := make_images_mem _ _ _ himg
    apply hnotex
    rw [List.mem_filter]
    exact ⟨hid ▸ hstore, by simp [(tileSeenInsert_inv api info).2 p hp, hid]⟩
  refine ⟨hnodup, hfresh, fun st t hids hnd => ?_⟩
  by_cases hsplit : MAX_SEARCH_RESULTS < (api 1).total ∧ t.depth + 1 ≤ Tile.MAX_DEPTH
  · rw [handleTile_split api true st t hsplit.1 hsplit.2,
      needChildren_ok st t hsplit.2]
    exact hids ▸ hnd
  · have hfalse : (if MAX_SEARCH_RESULTS < (api 1).total then needChildren st t
        else (false, t, st)) = (false, t, st) := by
      rcases not_and_or.mp hsplit with h | h
      · exact probe_false_of_le api st t (not_lt.mp h)
      · exact probe_false_of_depth api st t (by omega)
    rw [handleTile_harvest api st t hfalse]
    simp only [List.map_append]
    refine List.Nodup.append (hids ▸ hnd) ?_ ?_
    · exact hids ▸ ((make_images_ids_sublist _ _)).nodup (tileSeenInsert_inv api (api 1)).1
    · intro a ha hb
      obtain ⟨img, himg, rfl⟩ := List.mem_map.mp hb
      obtain ⟨p, hp, _, hid, hnotex⟩ := make_images_mem _ _ _ himg
      apply hnotex
      rw [List.mem_filter]
      exact ⟨hid ▸ ha, by simp [(tileSeenInsert_inv api (api 1)).2 p hp, hid]⟩

theorem harvest_dedup_unique_witness :
    ((handleTile (fun _ => ⟨2, 1, [⟨7, some 1, some 1, some 0, some 0⟩,
        ⟨7, some 1, some 1, some 0, some 0⟩]⟩) true
      ⟨[⟨0, none, 4, 0, 0, Status.toProbe⟩], 1, [⟨5, (0, 0), 0, 0⟩]⟩
      ⟨0, none, 4, 0, 0, Status.toProbe⟩).1.images.map Image.flickr_id).Nodup := by
  have h := harvest_dedup_unique
    (fun _ => ⟨2, 1, [⟨7, some 1, some 1, some 0, some 0⟩,
      ⟨7, some 1, some 1, some 0, some 0⟩]⟩)
    ⟨2, 1, [⟨7, some 1, some 1, some 0, some 0⟩, ⟨7, some 1, some 1, some 0, some 0⟩]⟩
    [5]
  exact h.2.2 ⟨[⟨0, none, 4, 0, 0, Status.toProbe⟩], 1, [⟨5, (0, 0), 0, 0⟩]⟩
    ⟨0, none, 4, 0, 0, Status.toProbe⟩ rfl (by decide)

/-- C4: the existence check, the bulk insert and the `mark_done` status
update run inside one `with self.insert_lock, atomic():` block: when the
unit succeeds, the new Images and the `contained` status land together;
when it fails, the transaction rolls back and the store is exactly as
before, so the tile keeps its `to-probe` status with none of its images
inserted, and `contained` is never written without the image writes. -/
theorem tile_persistence_atomic (api : Nat → PhotosPage) (st : Store) (t : Tile)
    (hharvest : (api 1).total ≤ MAX_SEARCH_RESULTS ∨ Tile.MAX_DEPTH < t.depth + 1) :
    handleTile api false st t = (st, false)
    ∧ (handleTile api true st t).1.tiles
        = saveTile st.tiles { t with status := Status.contained }
    ∧ (handleTile api true st t).1.images
        = st.images ++ make_images
            ((st.images.map Image.flickr_id).filter fun i =>
              decide (i ∈ (tileSeenInsert api (api 1)).1))
            (tileSeenInsert api (api 1)).2 := by
  have hfalse : (if MAX_SEARCH_RESULTS < (api 1).total then needChildren st t
      else (false, t, st)) = (false, t, st) := by
    rcases hharvest with h | h
    · exact probe_false_of_le api st t h
    · exact probe_false_of_depth api st t h
  refine ⟨handleTile_fail api st t hfalse, ?_, ?_⟩ <;>
    rw [handleTile_harvest api st t hfalse]

theorem tile_persistence_atomic_witness :
    handleTile (fun _ => ⟨2, 1, [⟨7, some 1, some 1, some 0, some 0⟩]⟩) false
      ⟨[⟨0, none, 4, 0, 0, Status.toProbe⟩], 1, []⟩ ⟨0, none, 4, 0, 0, Status.toProbe⟩
      = (⟨[⟨0, none, 4, 0, 0, Status.toProbe⟩], 1, []⟩, false) :=
  (tile_persistence_atomic (fun _ => ⟨2, 1, [⟨7, some 1, some 1, some 0, some 0⟩]⟩)
    ⟨[⟨0, none, 4, 0, 0, Status.toProbe⟩], 1, []⟩ ⟨0, none, 4, 0, 0, Status.toProbe⟩
    (Or.inl (by decide))).1

/-- C1: per-tile decision of the orchestrator: above `MAX_SEARCH_RESULTS`
(8 pages of 250) a split is attempted, and when it succeeds the tile is
left `split` with no records harvested; when the split is refused at
`MAX_DEPTH`, or the total is within capacity, the tile is harvested —
consuming pages 1 through `min(totalPages, 8)` in increasing page
order — and marked `contained`; a below-threshold tile never gains
children, so it is never split. -/
theorem handle_tile_decision (api : Nat → PhotosPage) (st : Store) (t : Tile) :
    (MAX_SEARCH_RESULTS < (api 1).total → t.depth + 1 ≤ Tile.MAX_DEPTH →
        handleTile api true st t = ((needChildren st t).2.2, true)
        ∧ (needChildren st t).1 = true
        ∧ (needChildren st t).2.1.status = Status.split
        ∧ (handleTile api true st t).1.images = st.images)
    ∧ (MAX_SEARCH_RESULTS < (api 1).total → Tile.MAX_DEPTH < t.depth + 1 →
        (handleTile api true st t).1.tiles
            = saveTile st.tiles { t with status := Status.contained }
        ∧ (handleTile api true st t).1.images
            = st.images ++ make_images
                ((st.images.map Image.flickr_id).filter fun i =>
                  decide (i ∈ (tileSeenInsert api (api 1)).1))
                (tileSeenInsert api (api 1)).2)
    ∧ ((api 1).total ≤ MAX_SEARCH_RESULTS →
        (handleTile api true st t).1.tiles
            = saveTile st.tiles { t with status := Status.contained }
        ∧ (handleTile api true st t).1.images
            = st.images ++ make_images
                ((st.images.map Image.flickr_id).filter fun i =>
                  decide (i ∈ (tileSeenInsert api (api 1)).1))
                (tileSeenInsert api (api 1)).2)
    ∧ (harvestRecords api (api 1)
        = ((List.range (pagesToFetch (api 1).pages)).map fun i => i + 1).foldr
            (fun p acc => (if p = 1 then (api 1).photo else (api p).photo) ++ acc) []
      ∧ pagesToFetch (api 1).pages = (min (api 1).pages 8).toNat
      ∧ List.Sorted (· < ·)
          ((List.range (pagesToFetch (api 1).pages)).map fun i => i + 1)) := by
  refine ⟨fun h1 h2 => ?_, fun h1 h2 => ?_, fun h1 => ?_, ?_, rfl, ?_⟩
  · have he := handleTile_split api true st t h1 h2
    refine ⟨he, by rw [needChildren_ok st t h2], by rw [needChildren_ok st t h2], ?_⟩
    rw [he, needChildren_ok st t h2]
  · have hfalse := probe_false_of_depth api st t h2
    rw [handleTile_harvest api st t hfalse]
    exact ⟨rfl, rfl⟩
  · have hfalse := probe_false_of_le api st t h1
    rw [handleTile_harvest api st t hfalse]
    exact ⟨rfl, rfl⟩
  · rw [List.foldr_map]
    unfold harvestRecords
    congr 1
    funext i acc
    by_cases hi : i = 0
    · subst hi
      simp
    · rw [if_neg hi, if_neg (by omega)]
  · exact List.Pairwise.map _ (fun a b hab => by omega) (List.pairwise_lt_range _)

theorem handle_tile_decision_witness :
    (handleTile (fun _ => ⟨2, 1, [⟨7, some 1, some 1, some 0, some 0⟩]⟩) true
      ⟨[⟨0, none, 4, 0, 0, Status.toProbe⟩], 1, []⟩
      ⟨0, none, 4, 0, 0, Status.toProbe⟩).1.tiles
      = saveTile [⟨0, none, 4, 0, 0, Status.toProbe⟩]
          { (⟨0, none, 4, 0, 0, Status.toProbe⟩ : Tile) with status := Status.contained } :=
  ((handle_tile_decision (fun _ => ⟨2, 1, [⟨7, some 1, some 1, some 0, some 0⟩]⟩)
      ⟨[⟨0, none, 4, 0, 0, Status.toProbe⟩], 1, []⟩
      ⟨0, none, 4, 0, 0, Status.toProbe⟩).2.2.1 (by decide)).1

/-- C3: the 4 children `need_children` creates sit at depth `d + 1` with
grid coordinates `(2x,2y)`, `(2x+1,2y)`, `(2x+1,2y+1)`, `(2x,2y+1)`, and
their bounding boxes union to exactly the bounding box of the parent — every
point of the parent lies in some child and every child lies inside the
parent — while distinct children overlap only on shared boundaries
(their interiors are pairwise disjoint). -/
theorem children_quarter_parent (st : Store) (t : Tile)
    (h : t.depth + 1 ≤ Tile.MAX_DEPTH) (hid : t.id < st.nextId) :
    ((needChildren st t).1 = true
      ∧ (needChildren st t).2.2.tiles =
          saveTile st.tiles { t with status := Status.split } ++ children4 st.nextId t)
    ∧ ((children4 st.nextId t).map fun c => (c.depth, c.x, c.y))
        = [(t.depth + 1, t.x * 2, t.y * 2), (t.depth + 1, t.x * 2 + 1, t.y * 2),
           (t.depth + 1, t.x * 2 + 1, t.y * 2 + 1), (t.depth + 1, t.x * 2, t.y * 2 + 1)]
    ∧ (∀ p : ℚ × ℚ, t.bbox.containsPoint p ↔
        ∃ c ∈ children4 st.nextId t, (Tile.bbox c).containsPoint p)
    ∧ (∀ c ∈ children4 st.nextId t, ∀ c' ∈ children4 st.nextId t, c ≠ c' →
        ∀ p : ℚ × ℚ, ¬((Tile.bbox c).interiorPoint p ∧ (Tile.bbox c').interiorPoint p)) := by
  refine ⟨⟨by rw [needChildren_ok st t h], needChildren_ok_tiles st t h hid⟩,
    by simp [children4], ?_, ?_⟩
  · intro p
    have hdx : (0:ℚ) ≤ 360 / 2 ^ t.depth := by positivity
    have hdy : (0:ℚ) ≤ 180 / 2 ^ t.depth := by positivity
    have e1 : (360 : ℚ) / 2 ^ (t.depth + 1) = 360 / 2 ^ t.depth / 2 := by
      rw [pow_succ, div_div]
    have e2 : (180 : ℚ) / 2 ^ (t.depth + 1) = 180 / 2 ^ t.depth / 2 := by
      rw [pow_succ, div_div]
    simp only [children4, Tile.bbox, BBox.containsPoint, List.mem_cons,
      List.not_mem_nil, or_false, exists_eq_or_imp, exists_eq_left, e1, e2]
    push_cast
    constructor
    · rintro ⟨h1, h2, h3, h4⟩
      rcases le_or_lt p.1 (-180 + (t.x : ℚ) * (360 / 2 ^ t.depth) + 360 / 2 ^ t.depth / 2)
          with hx | hx <;>
        rcases le_or_lt p.2 (-90 + (t.y : ℚ) * (180 / 2 ^ t.depth) + 180 / 2 ^ t.depth / 2)
          with hy | hy
      · exact Or.inl ⟨by linarith, by linarith, by linarith, by linarith⟩
      · exact Or.inr (Or.inr (Or.inr ⟨by linarith, by linarith, by linarith, by linarith⟩))
      · exact Or.inr (Or.inl ⟨by linarith, by linarith, by linarith, by linarith⟩)
      · exact Or.inr (Or.inr (Or.inl ⟨by linarith, by linarith, by linarith, by linarith⟩))
    · rintro (⟨h1, h2, h3, h4⟩ | ⟨h1, h2, h3, h4⟩ | ⟨h1, h2, h3, h4⟩ | ⟨h1, h2, h3, h4⟩) <;>
        exact ⟨by linarith, by linarith, by linarith, by linarith⟩
  · intro c hc c' hc' hne p hcontra
    simp only [children4, List.mem_cons, List.not_mem_nil, or_false] at hc hc'
    rcases hc with rfl | rfl | rfl | rfl <;> rcases hc' with rfl | rfl | rfl | rfl <;>
      first
        | exact absurd rfl hne
        | (simp only [Tile.bbox, BBox.interiorPoint] at hcontra
           push_cast at hcontra
           obtain ⟨⟨a1, a2, a3, a4⟩, b1, b2, b3, b4⟩ := hcontra
           linarith)

theorem children_quarter_parent_witness :
    ((children4 1 (Tile.mk 0 none 3 1 2 Status.toProbe)).map fun c => (c.depth, c.x, c.y))
      = [(4, 2, 4), (4, 3, 4), (4, 3, 5), (4, 2, 5)] :=
  (children_quarter_parent ⟨[⟨0, none, 3, 1, 2, Status.toProbe⟩], 1, []⟩
    ⟨0, none, 3, 1, 2, Status.toProbe⟩ (by decide) (by decide)).2.1

end GeoRabbit
